import Mathlib

/-!
Verification development for the Holt-Winters triple exponential smoothing
forecaster in `src/app/src/HoltWintersDemo.js` (function `holtWinters`).

Two shallow embeddings of the same source function are given:

* an exact model over `ℚ` (`holtWinters` and its components), used for the
  algebraic and structural claims; Lean division on `ℚ` is total with
  `q / 0 = 0`, and every theorem stated on this model either avoids zero
  divisors or does not depend on the value a zero division produces;
* a JavaScript-number model over `JNum` (`holtWintersJS`), where a value is
  an exact rational together with the IEEE special values `nan`, `inf` and
  `ninf`, used for the claims about error signalling and non-finite
  propagation.  Rounding is not modelled (rationals stay exact) and the sign
  of zero is not modelled (a zero divisor is treated as positive zero); this
  never changes whether a result is finite, and no theorem below depends on
  the sign of an infinite value.

The only exceptional control flow in the source is the JavaScript
`TypeError` thrown by `[].reduce` when `seasonalPeriod = 0`; both models
return `Option` and yield `none` exactly there.
-/

/-- JavaScript number: exact rational, or one of the special values. -/
inductive JNum : Type where
  | num : ℚ → JNum
  | nan : JNum
  | inf : JNum
  | ninf : JNum
deriving DecidableEq

namespace JNum

/-- JavaScript addition on the modelled numbers. -/
def add : JNum → JNum → JNum
  | nan, _ => nan
  | _, nan => nan
  | inf, ninf => nan
  | ninf, inf => nan
  | inf, _ => inf
  | _, inf => inf
  | ninf, _ => ninf
  | _, ninf => ninf
  | num a, num b => num (a + b)

/-- JavaScript negation. -/
def neg : JNum → JNum
  | num a => num (-a)
  | nan => nan
  | inf => ninf
  | ninf => inf

/-- JavaScript subtraction (`x - y = x + (-y)` holds exactly in IEEE). -/
def sub (x y : JNum) : JNum := add x (neg y)

/-- JavaScript multiplication (an infinity times zero is `NaN`). -/
def mul : JNum → JNum → JNum
  | nan, _ => nan
  | _, nan => nan
  | num a, num b => num (a * b)
  | inf, inf => inf
  | inf, ninf => ninf
  | ninf, inf => ninf
  | ninf, ninf => inf
  | inf, num b => if 0 < b then inf else if b < 0 then ninf else nan
  | num a, inf => if 0 < a then inf else if a < 0 then ninf else nan
  | ninf, num b => if 0 < b then ninf else if b < 0 then inf else nan
  | num a, ninf => if 0 < a then ninf else if a < 0 then inf else nan

/-- JavaScript division: a nonzero rational over zero is a signed infinity,
`0 / 0` is `NaN`; the zero divisor is treated as positive zero (the sign of
zero is not modelled). -/
def div : JNum → JNum → JNum
  | nan, _ => nan
  | _, nan => nan
  | num a, num b =>
      if b = 0 then (if 0 < a then inf else if a < 0 then ninf else nan)
      else num (a / b)
  | num _, inf => num 0
  | num _, ninf => num 0
  | inf, num b => if 0 ≤ b then inf else ninf
  | ninf, num b => if 0 ≤ b then ninf else inf
  | inf, inf => nan
  | inf, ninf => nan
  | ninf, inf => nan
  | ninf, ninf => nan

/-- A modelled JavaScript number is finite when it is a plain rational. -/
def isFinite : JNum → Bool
  | num _ => true
  | _ => false

instance : Add JNum := ⟨add⟩
instance : Neg JNum := ⟨neg⟩
instance : Sub JNum := ⟨sub⟩
instance : Mul JNum := ⟨mul⟩
instance : Div JNum := ⟨div⟩

end JNum

/-- Input record: the source reads `d.value` and spreads the rest of the
record into the output unchanged; the pass-through payload is modelled by
the `month` label. -/
structure Obs where
  month : String
  value : ℚ
deriving DecidableEq

/-- Output record of the exact model: the spread input fields plus the
computed `fitted`; forecast rows carry `value = none` (JS `null`). -/
structure OutRec where
  month : String
  value : Option ℚ
  fitted : ℚ
deriving DecidableEq

/-- Output record of the JavaScript-number model. -/
structure OutRecJS where
  month : String
  value : Option ℚ
  fitted : JNum
deriving DecidableEq

/-- The rolling state of the recurrence: `level`, `trend` and the seasonal
table mutated in place by the source loop. -/
structure HWState where
  level : ℚ
  trend : ℚ
  seasonals : List ℚ
deriving DecidableEq

/-- Rolling state of the JavaScript-number model. -/
structure HWStateJS where
  level : JNum
  trend : JNum
  seasonals : List JNum
deriving DecidableEq

/-- Default observation used with `List.getD`; it is only ever read at
indices below the list length. -/
def obsD : Obs := ⟨"", 0⟩

/-! ## Exact model (source lines 6-60, arithmetic over `ℚ`) -/

/-- Raw seasonal components (source lines 11-20): for each phase `i < m`
the inner loop `for (j = i; j < n; j += m)` visits exactly the indices
`j < n` with `j % m = i`, sums `series[j]` over them and divides by their
count. -/
def rawSeasonals (series : List ℚ) (m : Nat) : List ℚ :=
  (List.range m).map (fun i =>
    let idxs := (List.range series.length).filter (fun j => j % m = i)
    (idxs.map (fun j => series.getD j 0)).sum / (idxs.length : ℚ))

/-- Normalized seasonal table (source lines 22-24): every raw component is
divided by the mean of the `m` raw components (`reduce` sums them in order,
which over `ℚ` is `List.sum`). -/
def normSeasonals (series : List ℚ) (m : Nat) : List ℚ :=
  let raw := rawSeasonals series m
  let avg := raw.sum / (m : ℚ)
  raw.map (fun v => v / avg)

/-- Seed state (source lines 26-27): `level = series[0]`,
`trend = (series[m] - series[0]) / m`. -/
def initState (series : List ℚ) (m : Nat) : HWState :=
  { level := series.getD 0 0
    trend := (series.getD m 0 - series.getD 0 0) / (m : ℚ)
    seasonals := normSeasonals series m }

/-- One iteration of the source loop (lines 32-41): the seasonal slot
`i % m` is read before the update, the trend update reads the new level,
the seasonal update reads the new level, and the slot is written last. -/
def hwStep (alpha beta gamma : ℚ) (m : Nat) (st : HWState) (i : Nat)
    (value : ℚ) : HWState :=
  let s := st.seasonals.getD (i % m) 0
  let level := alpha * (value / s) + (1 - alpha) * (st.level + st.trend)
  let trend := beta * (level - st.level) + (1 - beta) * st.trend
  { level := level
    trend := trend
    seasonals := st.seasonals.set (i % m) (gamma * (value / level) + (1 - gamma) * s) }

/-- State after `i` iterations of the source loop. -/
def stateAfter (alpha beta gamma : ℚ) (m : Nat) (series : List ℚ) : Nat → HWState
  | 0 => initState series m
  | i + 1 => hwStep alpha beta gamma m (stateAfter alpha beta gamma m series i) i
      (series.getD i 0)

/-- Records pushed by the source loop (lines 42-45): the record for step `i`
spreads `data[i]` and adds `fitted = (level + trend) * seasonals[i % m]`
evaluated on the state after the update of step `i`; reading the slot
`i % m` after the write of line 39 returns the value just written, which is
`(stateAfter _ _ _ _ _ (i+1)).seasonals.getD (i % m) 0`. -/
def hwResults (alpha beta gamma : ℚ) (m : Nat) (data : List Obs) : List OutRec :=
  let series := data.map (fun d => d.value)
  (List.range data.length).map (fun i =>
    let st := stateAfter alpha beta gamma m series (i + 1)
    { month := (data.getD i obsD).month
      value := some (data.getD i obsD).value
      fitted := (st.level + st.trend) * st.seasonals.getD (i % m) 0 })

/-- Forecast records (source lines 49-57): the final state after all `n`
iterations projects forward, `fitted = (level + trend * (i+1)) *
seasonals[(n + i) % m]`, with `value = null`. -/
def hwForecasts (alpha beta gamma : ℚ) (m : Nat) (data : List Obs)
    (f : Nat) : List OutRec :=
  let series := data.map (fun d => d.value)
  let n := data.length
  let st := stateAfter alpha beta gamma m series n
  (List.range f).map (fun (i : Nat) =>
    { month := "Forecast " ++ toString (i + 1)
      value := none
      fitted := (st.level + st.trend * ((i : ℚ) + 1)) *
        st.seasonals.getD ((n + i) % m) 0 })

/-- The whole source function over exact arithmetic.  With
`seasonalPeriod = 0` the call `seasonals.reduce((a, b) => a + b)` throws a
`TypeError` on the empty array, modelled by `none`; otherwise the result is
the fitted records followed by the forecast records. -/
def holtWinters (data : List Obs) (alpha beta gamma : ℚ) (m f : Nat) :
    Option (List OutRec) :=
  if m = 0 then none
  else some (hwResults alpha beta gamma m data ++ hwForecasts alpha beta gamma m data f)

/-! ## JavaScript-number model (same source lines, arithmetic over `JNum`);
out-of-bounds reads give `undefined`, which every arithmetic operator turns
into `NaN`, so the `List.getD` default is `JNum.nan`. -/

/-- Raw seasonal components over JavaScript numbers; a phase with no
observations yields `0 / 0 = NaN` exactly as in the source. -/
def rawSeasonalsJS (series : List JNum) (m : Nat) : List JNum :=
  (List.range m).map (fun i =>
    let idxs := (List.range series.length).filter (fun j => j % m = i)
    ((idxs.map (fun j => series.getD j JNum.nan)).foldl (fun a b => a + b)
      (JNum.num 0)) / JNum.num (idxs.length : ℚ))

/-- Normalized seasonal table over JavaScript numbers; `reduce` folds from
the head with no initial accumulator (the empty case is unreachable here
because the caller has already signalled the `TypeError`). -/
def normSeasonalsJS (series : List JNum) (m : Nat) : List JNum :=
  let raw := rawSeasonalsJS series m
  match raw with
  | [] => []
  | x :: xs =>
      let avg := (xs.foldl (fun a b => a + b) x) / JNum.num (m : ℚ)
      (x :: xs).map (fun v => v / avg)

/-- Seed state over JavaScript numbers. -/
def initStateJS (series : List JNum) (m : Nat) : HWStateJS :=
  { level := series.getD 0 JNum.nan
    trend := (series.getD m JNum.nan - series.getD 0 JNum.nan) / JNum.num (m : ℚ)
    seasonals := normSeasonalsJS series m }

/-- One iteration of the source loop over JavaScript numbers. -/
def hwStepJS (alpha beta gamma : ℚ) (m : Nat) (st : HWStateJS) (i : Nat)
    (value : JNum) : HWStateJS :=
  let s := st.seasonals.getD (i % m) JNum.nan
  let level := JNum.num alpha * (value / s) +
    JNum.num (1 - alpha) * (st.level + st.trend)
  let trend := JNum.num beta * (level - st.level) + JNum.num (1 - beta) * st.trend
  { level := level
    trend := trend
    seasonals := st.seasonals.set (i % m)
      (JNum.num gamma * (value / level) + JNum.num (1 - gamma) * s) }

/-- State after `i` iterations, over JavaScript numbers. -/
def stateAfterJS (alpha beta gamma : ℚ) (m : Nat) (series : List JNum) :
    Nat → HWStateJS
  | 0 => initStateJS series m
  | i + 1 => hwStepJS alpha beta gamma m (stateAfterJS alpha beta gamma m series i) i
      (series.getD i JNum.nan)

/-- Records pushed by the source loop, over JavaScript numbers. -/
def hwResultsJS (alpha beta gamma : ℚ) (m : Nat) (data : List Obs) :
    List OutRecJS :=
  let series := data.map (fun d => JNum.num d.value)
  (List.range data.length).map (fun i =>
    let st := stateAfterJS alpha beta gamma m series (i + 1)
    { month := (data.getD i obsD).month
      value := some (data.getD i obsD).value
      fitted := (st.level + st.trend) * st.seasonals.getD (i % m) JNum.nan })

/-- Forecast records, over JavaScript numbers. -/
def hwForecastsJS (alpha beta gamma : ℚ) (m : Nat) (data : List Obs)
    (f : Nat) : List OutRecJS :=
  let series := data.map (fun d => JNum.num d.value)
  let n := data.length
  let st := stateAfterJS alpha beta gamma m series n
  (List.range f).map (fun (i : Nat) =>
    { month := "Forecast " ++ toString (i + 1)
      value := none
      fitted := (st.level + st.trend * JNum.num ((i : ℚ) + 1)) *
        st.seasonals.getD ((n + i) % m) JNum.nan })

/-- The whole source function over JavaScript numbers; `none` models the
`TypeError` thrown by `[].reduce` when `seasonalPeriod = 0`, the only way
the source can fail to return a result list. -/
def holtWintersJS (data : List Obs) (alpha beta gamma : ℚ) (m f : Nat) :
    Option (List OutRecJS) :=
  if m = 0 then none
  else some (hwResultsJS alpha beta gamma m data ++
    hwForecastsJS alpha beta gamma m data f)

/-! ## Helper lemmas -/

/-- Unfolding lemma for the `Add JNum` instance. -/
theorem jnum_add_def (x y : JNum) : x + y = JNum.add x y := rfl

/-- Unfolding lemma for the `Sub JNum` instance. -/
theorem jnum_sub_def (x y : JNum) : x - y = JNum.sub x y := rfl

/-- Unfolding lemma for the `Mul JNum` instance. -/
theorem jnum_mul_def (x y : JNum) : x * y = JNum.mul x y := rfl

/-- Unfolding lemma for the `Div JNum` instance. -/
theorem jnum_div_def (x y : JNum) : x / y = JNum.div x y := rfl

theorem length_rawSeasonals (series : List ℚ) (m : Nat) :
    (rawSeasonals series m).length = m := by
  simp [rawSeasonals]

theorem length_normSeasonals (series : List ℚ) (m : Nat) :
    (normSeasonals series m).length = m := by
  simp [normSeasonals, length_rawSeasonals]

theorem length_stateAfter_seasonals (alpha beta gamma : ℚ) (m : Nat)
    (series : List ℚ) (i : Nat) :
    (stateAfter alpha beta gamma m series i).seasonals.length = m := by
  induction i with
  | zero => simp [stateAfter, initState, length_normSeasonals]
  | succ i ih => simp [stateAfter, hwStep, ih]

theorem getD_set_self {α : Type} (l : List α) (n : Nat) (a d : α)
    (h : n < l.length) : (l.set n a).getD n d = a := by
  induction l generalizing n with
  | nil => simp at h
  | cons x xs ih =>
    cases n with
    | zero => rfl
    | succ n => simpa [List.getD] using ih n (by simpa using h)

theorem set_getD_self {α : Type} (l : List α) (n : Nat) (d : α)
    (h : n < l.length) : l.set n (l.getD n d) = l := by
  induction l generalizing n with
  | nil => simp at h
  | cons x xs ih =>
    cases n with
    | zero => rfl
    | succ n => simpa [List.getD] using ih n (by simpa using h)

theorem getD_replicate {α : Type} (m k : Nat) (c d : α) (h : k < m) :
    (List.replicate m c).getD k d = c := by
  induction m generalizing k with
  | zero => omega
  | succ m ih =>
    cases k with
    | zero => rfl
    | succ k => simpa [List.replicate, List.getD] using ih k (by omega)

theorem replicate_set {α : Type} (m k : Nat) (c : α) :
    (List.replicate m c).set k c = List.replicate m c := by
  induction m generalizing k with
  | zero => rfl
  | succ m ih =>
    cases k with
    | zero => rfl
    | succ k => simp [List.replicate, ih]

theorem get?_range_map {α : Type} (g : Nat → α) {n i : Nat} (h : i < n) :
    ((List.range n).map g).get? i = some (g i) := by
  rw [List.get?_map, List.get?_range h, Option.map_some']

/-- The record the source loop pushes at step `i`. -/
theorem hwResults_get? (alpha beta gamma : ℚ) (m : Nat) (data : List Obs)
    {i : Nat} (hi : i < data.length) :
    (hwResults alpha beta gamma m data).get? i =
      some { month := (data.getD i obsD).month
             value := some (data.getD i obsD).value
             fitted :=
               ((stateAfter alpha beta gamma m (data.map (fun d => d.value)) (i + 1)).level +
                 (stateAfter alpha beta gamma m (data.map (fun d => d.value)) (i + 1)).trend) *
               (stateAfter alpha beta gamma m (data.map (fun d => d.value))
                 (i + 1)).seasonals.getD (i % m) 0 } := by
  simp only [hwResults]
  exact get?_range_map _ hi

/-- The record the forecast loop pushes at its step `i`. -/
theorem hwForecasts_get? (alpha beta gamma : ℚ) (m : Nat) (data : List Obs)
    (f : Nat) {i : Nat} (hi : i < f) :
    (hwForecasts alpha beta gamma m data f).get? i =
      some { month := "Forecast " ++ toString (i + 1)
             value := none
             fitted :=
               ((stateAfter alpha beta gamma m (data.map (fun d => d.value))
                   data.length).level +
                 (stateAfter alpha beta gamma m (data.map (fun d => d.value))
                   data.length).trend * ((i : ℚ) + 1)) *
               (stateAfter alpha beta gamma m (data.map (fun d => d.value))
                 data.length).seasonals.getD ((data.length + i) % m) 0 } := by
  simp only [hwForecasts]
  exact get?_range_map _ hi

theorem length_hwResults (alpha beta gamma : ℚ) (m : Nat) (data : List Obs) :
    (hwResults alpha beta gamma m data).length = data.length := by
  simp [hwResults]

theorem length_hwForecasts (alpha beta gamma : ℚ) (m : Nat) (data : List Obs)
    (f : Nat) : (hwForecasts alpha beta gamma m data f).length = f := by
  simp [hwForecasts]

/-! ## C1: the recurrence step -/

/-- Statement of the claimed step equations, written as the specification
words them: the pre-update slot `s`, the new level from `s`, the new trend
from the new level, the new seasonal slot from the new level, and the
emitted fitted value from the post-update slot. -/
def specRecurrenceStep (alpha beta gamma : ℚ) (m : Nat) (data : List Obs)
    (i : Nat) : Prop :=
  let series := data.map (fun d => d.value)
  let st := stateAfter alpha beta gamma m series i
  let v := series.getD i 0
  let s := st.seasonals.getD (i % m) 0
  let level := alpha * (v / s) + (1 - alpha) * (st.level + st.trend)
  let trend := beta * (level - st.level) + (1 - beta) * st.trend
  let snew := gamma * (v / level) + (1 - gamma) * s
  (stateAfter alpha beta gamma m series (i + 1)).level = level ∧
  (stateAfter alpha beta gamma m series (i + 1)).trend = trend ∧
  (stateAfter alpha beta gamma m series (i + 1)).seasonals =
    st.seasonals.set (i % m) snew ∧
  ((hwResults alpha beta gamma m data).get? i).map (fun r => r.fitted) =
    some ((level + trend) * snew)

/-- C1: at every step `i < n` of the recurrence, with `value = series[i]`
and `s` the pre-update seasonal slot `i % m`, the new state is
`level = alpha*(value/s) + (1-alpha)*(level+trend)`,
`trend = beta*(level-lastLevel) + (1-beta)*trend`,
`seasonals[i % m] = gamma*(value/level) + (1-gamma)*s`, in exactly this
dependency order, and the emitted fitted value is
`(level + trend) * seasonals[i % m]` read from the post-update slot. -/
theorem hw_step_matches_spec (alpha beta gamma : ℚ) (m : Nat) (data : List Obs)
    (i : Nat) (hm : 1 ≤ m) (hi : i < data.length) :
    specRecurrenceStep alpha beta gamma m data i := by
  have hmod : i % m < m := Nat.mod_lt _ (by omega)
  have hse : (stateAfter alpha beta gamma m (data.map (fun d => d.value))
        (i + 1)).seasonals.getD (i % m) 0
      = gamma * ((data.map (fun d => d.value)).getD i 0 /
          (stateAfter alpha beta gamma m (data.map (fun d => d.value)) (i + 1)).level) +
        (1 - gamma) *
          (stateAfter alpha beta gamma m (data.map (fun d => d.value))
            i).seasonals.getD (i % m) 0 := by
    show ((stateAfter alpha beta gamma m (data.map (fun d => d.value))
        i).seasonals.set (i % m) _).getD (i % m) 0 = _
    exact getD_set_self _ _ _ _
      (by rw [length_stateAfter_seasonals]; exact hmod)
  unfold specRecurrenceStep
  refine ⟨rfl, rfl, rfl, ?_⟩
  rw [hwResults_get? alpha beta gamma m data hi, Option.map_some']
  simp only [Option.some.injEq]
  rw [hse]
  rfl

/-- Witness for C1 at a concrete input. -/
theorem hw_step_matches_spec_witness :
    (1 ≤ 2 ∧ 1 < 3) ∧ specRecurrenceStep (1/2) (2/5) (3/5) 2
      [⟨"a", 1⟩, ⟨"b", 2⟩, ⟨"c", 3⟩] 1 :=
  ⟨⟨by decide, by decide⟩,
    hw_step_matches_spec (1/2) (2/5) (3/5) 2 [⟨"a", 1⟩, ⟨"b", 2⟩, ⟨"c", 3⟩] 1
      (by decide) (by decide)⟩

theorem get?_eq_some_getD {α : Type} (l : List α) (n : Nat) (d : α)
    (h : n < l.length) : l.get? n = some (l.getD n d) := by
  induction l generalizing n with
  | nil => simp at h
  | cons x xs ih =>
    cases n with
    | zero => rfl
    | succ n => simpa [List.getD] using ih n (by simpa using h)

theorem sum_map_div (l : List ℚ) (c : ℚ) :
    (l.map (fun v => v / c)).sum = l.sum / c := by
  induction l with
  | nil => simp
  | cons x xs ih => simp [ih, add_div]

theorem holtWinters_eq_some (data : List Obs) (alpha beta gamma : ℚ)
    {m : Nat} (f : Nat) (hm : m ≠ 0) :
    holtWinters data alpha beta gamma m f =
      some (hwResults alpha beta gamma m data ++
        hwForecasts alpha beta gamma m data f) := by
  simp [holtWinters, hm]

/-! ## C2: the forecast projection -/

/-- Statement of the claimed forecast formula for the h-th forecast, as the
specification words it: the record at output position `n + h - 1` carries
`(level + trend * h) * seasonals[(n + h - 1) mod m]` evaluated on the final
state after all `n` recurrence steps. -/
def specForecastEq (data : List Obs) (alpha beta gamma : ℚ) (m f h : Nat) : Prop :=
  let n := data.length
  let st := stateAfter alpha beta gamma m (data.map (fun d => d.value)) n
  ((holtWinters data alpha beta gamma m f).bind (fun l => l.get? (n + (h - 1)))).map
      (fun r => r.fitted) =
    some ((st.level + st.trend * (h : ℚ)) * st.seasonals.getD ((n + h - 1) % m) 0)

/-- C2: for every `h` from 1 to the horizon, the h-th forecast value equals
`(level + trend * h) * seasonals[(n + h - 1) mod m]` on the final trained
state. -/
theorem hw_forecast_formula (data : List Obs) (alpha beta gamma : ℚ)
    (m f h : Nat) (hm : 1 ≤ m) (h1 : 1 ≤ h) (hf : h ≤ f) :
    specForecastEq data alpha beta gamma m f h := by
  have hmne : m ≠ 0 := by omega
  unfold specForecastEq
  rw [holtWinters_eq_some data alpha beta gamma f hmne]
  simp only [Option.some_bind]
  rw [List.get?_append_right (by rw [length_hwResults]; omega)]
  rw [length_hwResults]
  have hidx : data.length + (h - 1) - data.length = h - 1 := by omega
  rw [hidx]
  rw [hwForecasts_get? alpha beta gamma m data f (by omega)]
  rw [Option.map_some']
  have hcast : ((h - 1 : ℕ) : ℚ) + 1 = (h : ℚ) := by
    rw [Nat.cast_sub h1]
    ring
  have hidx2 : data.length + (h - 1) = data.length + h - 1 := by omega
  rw [hcast, hidx2]

/-- Witness for C2 at a concrete input. -/
theorem hw_forecast_formula_witness :
    (1 ≤ 2 ∧ 1 ≤ 2 ∧ 2 ≤ 3) ∧ specForecastEq [⟨"a", 1⟩, ⟨"b", 2⟩, ⟨"c", 3⟩]
      (1/2) (2/5) (3/5) 2 3 2 :=
  ⟨⟨by decide, by decide, by decide⟩,
    hw_forecast_formula [⟨"a", 1⟩, ⟨"b", 2⟩, ⟨"c", 3⟩] (1/2) (2/5) (3/5) 2 3 2
      (by decide) (by decide) (by decide)⟩

/-! ## C3: output length and pass-through of observations -/

/-- Statement of the claimed output shape: some output list of length
`n + f` is returned, its first `n` records carry the original observation
fields unchanged (month and observed value), and its last `f` records have
an absent observed value. -/
def specOutputShape (data : List Obs) (alpha beta gamma : ℚ) (m f : Nat) : Prop :=
  ∃ l, holtWinters data alpha beta gamma m f = some l ∧
    l.length = data.length + f ∧
    (∀ i, i < data.length → (l.get? i).map (fun r => (r.month, r.value)) =
      (data.get? i).map (fun d => (d.month, some d.value))) ∧
    (∀ j, data.length ≤ j → j < data.length + f →
      (l.get? j).map (fun r => r.value) = some none)

/-- C3: for a series of length `n` and horizon `f` the output has exactly
`n + f` records, the first `n` echo the corresponding observation, the last
`f` have a null observed value. -/
theorem hw_output_shape (data : List Obs) (alpha beta gamma : ℚ) (m f : Nat)
    (hm : 1 ≤ m) : specOutputShape data alpha beta gamma m f := by
  have hmne : m ≠ 0 := by omega
  refine ⟨_, holtWinters_eq_some data alpha beta gamma f hmne, ?_, ?_, ?_⟩
  · simp [length_hwResults, length_hwForecasts]
  · intro i hi
    rw [List.get?_append (by rw [length_hwResults]; exact hi),
      hwResults_get? alpha beta gamma m data hi,
      get?_eq_some_getD data i obsD hi, Option.map_some', Option.map_some']
  · intro j h1 h2
    rw [List.get?_append_right (by rw [length_hwResults]; exact h1),
      length_hwResults,
      hwForecasts_get? alpha beta gamma m data f (by omega),
      Option.map_some']

/-- Witness for C3 at a concrete input. -/
theorem hw_output_shape_witness :
    1 ≤ 2 ∧ specOutputShape [⟨"a", 1⟩, ⟨"b", 2⟩, ⟨"c", 3⟩] (1/2) (2/5) (3/5) 2 4 :=
  ⟨by decide,
    hw_output_shape [⟨"a", 1⟩, ⟨"b", 2⟩, ⟨"c", 3⟩] (1/2) (2/5) (3/5) 2 4 (by decide)⟩

/-! ## C4: the normalization invariant -/

/-- C4: after seasonal initialization, whenever the mean of the raw
seasonal components is nonzero, the mean of the normalized m-entry seasonal
table is exactly 1 (exact arithmetic). -/
theorem hw_seasonal_mean_one (series : List ℚ) (m : Nat) (hm : 1 ≤ m)
    (hmn : m ≤ series.length)
    (havg : (rawSeasonals series m).sum / (m : ℚ) ≠ 0) :
    (normSeasonals series m).sum / (m : ℚ) = 1 := by
  have hm0 : (m : ℚ) ≠ 0 := Nat.cast_ne_zero.mpr (by omega)
  have hsum : (rawSeasonals series m).sum ≠ 0 := by
    intro h0
    exact havg (by rw [h0, zero_div])
  unfold normSeasonals
  rw [sum_map_div]
  field_simp

/-- Witness for C4 at a concrete input. -/
theorem hw_seasonal_mean_one_witness :
    (1 ≤ 2 ∧ 2 ≤ 3 ∧ (rawSeasonals [1, 2, 3] 2).sum / (2 : ℚ) ≠ 0) ∧
      (normSeasonals [1, 2, 3] 2).sum / (2 : ℚ) = 1 := by
  have h1 : (1 : Nat) ≤ 2 := by decide
  have h2 : (2 : Nat) ≤ 3 := by decide
  have h3 : (rawSeasonals [1, 2, 3] 2).sum / (2 : ℚ) ≠ 0 := by
    norm_num [rawSeasonals, List.range_succ]
  exact ⟨⟨h1, h2, h3⟩, hw_seasonal_mean_one [1, 2, 3] 2 h1 h2 h3⟩

/-! ## C5: the all-zero-coefficients boundary -/

/-- C5 counterexample: with `alpha = beta = gamma = 0` on the valid series
`[1, 2]` with period 1, the seed level is 1 but the level after one
recurrence step is 2, so the level does not stay at its seed value (the
code moves the level by the seed trend at every step). -/
theorem hw_alpha_zero_level_moves :
    (stateAfter 0 0 0 1 [1, 2] 0).level = 1 ∧
    (stateAfter 0 0 0 1 [1, 2] 1).level = 2 ∧ ((2 : ℚ) ≠ 1) := by
  refine ⟨?_, ?_, by norm_num⟩ <;>
    norm_num [stateAfter, hwStep, initState, normSeasonals, rawSeasonals,
      List.range_succ]

/-- Amended statement of C5: with `alpha = beta = gamma = 0` the trend
stays at its seed `T0`, the seasonal table stays at its normalized initial
state, the level after `i` steps is `L0 + i * T0` (it advances by the seed
trend every step), and the fitted value at step `i` is
`(L0 + (i + 2) * T0) * seasonal[i mod m]`. -/
def specNoLearning (data : List Obs) (m : Nat) (i : Nat) : Prop :=
  let series := data.map (fun d => d.value)
  let L0 := series.getD 0 0
  let T0 := (series.getD m 0 - L0) / (m : ℚ)
  (stateAfter 0 0 0 m series i).level = L0 + (i : ℚ) * T0 ∧
  (stateAfter 0 0 0 m series i).trend = T0 ∧
  (stateAfter 0 0 0 m series i).seasonals = normSeasonals series m ∧
  (i < data.length →
    ((hwResults 0 0 0 m data).get? i).map (fun r => r.fitted) =
      some ((L0 + ((i : ℚ) + 2) * T0) * (normSeasonals series m).getD (i % m) 0))

/-- State evolution with all coefficients zero. -/
theorem stateAfter_zero_coeff (series : List ℚ) (m : Nat) (hm : 1 ≤ m) :
    ∀ i, stateAfter 0 0 0 m series i =
      { level := series.getD 0 0 +
          (i : ℚ) * ((series.getD m 0 - series.getD 0 0) / (m : ℚ))
        trend := (series.getD m 0 - series.getD 0 0) / (m : ℚ)
        seasonals := normSeasonals series m } := by
  intro i
  induction i with
  | zero =>
    simp only [stateAfter, initState, HWState.mk.injEq, and_true, true_and]
    push_cast
    ring
  | succ i ih =>
    have hmod : i % m < m := Nat.mod_lt _ (by omega)
    show hwStep 0 0 0 m (stateAfter 0 0 0 m series i) i (series.getD i 0) = _
    rw [ih]
    unfold hwStep
    simp only [HWState.mk.injEq]
    refine ⟨by push_cast; ring, by ring, ?_⟩
    have harg : (0 : ℚ) * (series.getD i 0 /
          (0 * (series.getD i 0 / (normSeasonals series m).getD (i % m) 0) +
            (1 - 0) * ((series.getD 0 0 +
              (i : ℚ) * ((series.getD m 0 - series.getD 0 0) / (m : ℚ))) +
              (series.getD m 0 - series.getD 0 0) / (m : ℚ)))) +
        (1 - 0) * (normSeasonals series m).getD (i % m) 0 =
        (normSeasonals series m).getD (i % m) 0 := by ring
    rw [harg]
    exact set_getD_self _ _ _ (by rw [length_normSeasonals]; exact hmod)

/-- C5 amended: with all three coefficients zero, the trend and the
seasonal table are frozen at their seeds, the level advances by the seed
trend each step, and the fitted value at step `i` is
`(L0 + (i + 2) * T0) * seasonal[i mod m]`. -/
theorem hw_no_learning (data : List Obs) (m i : Nat) (hm : 1 ≤ m) :
    specNoLearning data m i := by
  have hst := stateAfter_zero_coeff (data.map (fun d => d.value)) m hm
  unfold specNoLearning
  refine ⟨by rw [hst i], by rw [hst i], by rw [hst i], ?_⟩
  intro hi
  rw [hwResults_get? 0 0 0 m data hi, Option.map_some']
  simp only [Option.some.injEq]
  rw [hst (i + 1)]
  push_cast
  ring

/-- Witness for the amended C5 at a concrete input. -/
theorem hw_no_learning_witness :
    1 ≤ 1 ∧ specNoLearning [⟨"a", 1⟩, ⟨"b", 2⟩] 1 1 :=
  ⟨by decide, hw_no_learning [⟨"a", 1⟩, ⟨"b", 2⟩] 1 1 (by decide)⟩

/-! ## C6: the linear-series boundary -/

/-- A perfectly linear input series `value[i] = a + b * i`. -/
def linData (a b : ℚ) (n : Nat) : List Obs :=
  (List.range n).map (fun (i : Nat) => ⟨"t" ++ toString i, a + b * (i : ℚ)⟩)

theorem getD_eq_of_get? {α : Type} {l : List α} {n : Nat} {x : α} (d : α)
    (h : l.get? n = some x) : l.getD n d = x := by
  induction l generalizing n with
  | nil => simp at h
  | cons y ys ih =>
    cases n with
    | zero => simpa [List.getD] using h
    | succ n => simpa [List.getD] using ih (by simpa using h)

/-- Value of the JavaScript-number series of a linear input at an index
below its length. -/
theorem linDataJS_getD (a b : ℚ) (n : Nat) {i : Nat} (h : i < n) :
    ((linData a b n).map (fun d => JNum.num d.value)).getD i JNum.nan =
      JNum.num (a + b * (i : ℚ)) := by
  unfold linData
  rw [List.map_map]
  exact getD_eq_of_get? JNum.nan (get?_range_map _ h)

/-- Addition of two finite JavaScript numbers is exact. -/
theorem jnum_num_add (a b : ℚ) : JNum.num a + JNum.num b = JNum.num (a + b) := rfl

/-- Subtraction of two finite JavaScript numbers is exact. -/
theorem jnum_num_sub (a b : ℚ) : JNum.num a - JNum.num b = JNum.num (a - b) := by
  simp [jnum_sub_def, JNum.sub, JNum.neg, JNum.add, sub_eq_add_neg]

/-- Multiplication of two finite JavaScript numbers is exact. -/
theorem jnum_num_mul (a b : ℚ) : JNum.num a * JNum.num b = JNum.num (a * b) := rfl

/-- Division of finite JavaScript numbers by a nonzero denominator is
exact. -/
theorem jnum_num_div (a b : ℚ) (hb : b ≠ 0) :
    JNum.num a / JNum.num b = JNum.num (a / b) := by
  simp [jnum_div_def, JNum.div, hb]

/-- The record pushed by the source loop at step `i`, JavaScript-number
model. -/
theorem hwResultsJS_get? (alpha beta gamma : ℚ) (m : Nat) (data : List Obs)
    {i : Nat} (hi : i < data.length) :
    (hwResultsJS alpha beta gamma m data).get? i =
      some { month := (data.getD i obsD).month
             value := some (data.getD i obsD).value
             fitted :=
               ((stateAfterJS alpha beta gamma m
                    (data.map (fun d => JNum.num d.value)) (i + 1)).level +
                 (stateAfterJS alpha beta gamma m
                    (data.map (fun d => JNum.num d.value)) (i + 1)).trend) *
               (stateAfterJS alpha beta gamma m
                 (data.map (fun d => JNum.num d.value))
                 (i + 1)).seasonals.getD (i % m) JNum.nan } := by
  simp only [hwResultsJS]
  exact get?_range_map _ hi

/-- The record pushed by the forecast loop at its step `i`,
JavaScript-number model. -/
theorem hwForecastsJS_get? (alpha beta gamma : ℚ) (m : Nat) (data : List Obs)
    (f : Nat) {i : Nat} (hi : i < f) :
    (hwForecastsJS alpha beta gamma m data f).get? i =
      some { month := "Forecast " ++ toString (i + 1)
             value := none
             fitted :=
               ((stateAfterJS alpha beta gamma m
                    (data.map (fun d => JNum.num d.value)) data.length).level +
                 (stateAfterJS alpha beta gamma m
                    (data.map (fun d => JNum.num d.value)) data.length).trend *
                  JNum.num ((i : ℚ) + 1)) *
               (stateAfterJS alpha beta gamma m
                 (data.map (fun d => JNum.num d.value))
                 data.length).seasonals.getD ((data.length + i) % m) JNum.nan } := by
  simp only [hwForecastsJS]
  exact get?_range_map _ hi

/-- One step with `alpha = beta = 1`, `gamma = 0` on an all-ones seasonal
table, over JavaScript numbers: provided the observed value is nonzero (so
that `value / level` is not `0 / 0 = NaN`), the level becomes the observed
value, the trend the difference with the previous level, and the table
stays all ones. -/
theorem hwStepJS_ones (m : Nat) (hm : 1 ≤ m) (L T v : ℚ) (hv : v ≠ 0) (i : Nat) :
    hwStepJS 1 1 0 m ⟨JNum.num L, JNum.num T, List.replicate m (JNum.num 1)⟩ i
        (JNum.num v) =
      ⟨JNum.num v, JNum.num (v - L), List.replicate m (JNum.num 1)⟩ := by
  have hmod : i % m < m := Nat.mod_lt _ (by omega)
  unfold hwStepJS
  rw [getD_replicate m (i % m) (JNum.num 1) JNum.nan hmod]
  norm_num [jnum_num_add, jnum_num_sub, jnum_num_mul, jnum_num_div, hv,
    HWStateJS.mk.injEq, replicate_set]

theorem c6_initJS (a b : ℚ) (n m : Nat) (hm : 1 ≤ m) (hmn : m < n)
    (hs : normSeasonalsJS ((linData a b n).map (fun d => JNum.num d.value)) m =
      List.replicate m (JNum.num 1)) :
    initStateJS ((linData a b n).map (fun d => JNum.num d.value)) m =
      ⟨JNum.num a, JNum.num b, List.replicate m (JNum.num 1)⟩ := by
  have hm0 : ((m : ℕ) : ℚ) ≠ 0 := Nat.cast_ne_zero.mpr (by omega)
  unfold initStateJS
  rw [hs, linDataJS_getD a b n (show 0 < n by omega), linDataJS_getD a b n hmn]
  simp only [HWStateJS.mk.injEq]
  refine ⟨by norm_num, ?_, trivial⟩
  rw [jnum_num_sub, jnum_num_div _ _ hm0]
  congr 1
  push_cast
  field_simp

theorem c6_state1JS (a b : ℚ) (n m : Nat) (hm : 1 ≤ m) (hmn : m < n)
    (hs : normSeasonalsJS ((linData a b n).map (fun d => JNum.num d.value)) m =
      List.replicate m (JNum.num 1))
    (hnz : ∀ i, i < n → a + b * (i : ℚ) ≠ 0) :
    stateAfterJS 1 1 0 m ((linData a b n).map (fun d => JNum.num d.value)) 1 =
      ⟨JNum.num a, JNum.num 0, List.replicate m (JNum.num 1)⟩ := by
  have h0 : ((linData a b n).map (fun d => JNum.num d.value)).getD 0 JNum.nan =
      JNum.num a := by
    rw [linDataJS_getD a b n (show 0 < n by omega)]
    norm_num
  have ha : a ≠ 0 := by
    have := hnz 0 (by omega)
    simpa using this
  show hwStepJS 1 1 0 m
      (initStateJS ((linData a b n).map (fun d => JNum.num d.value)) m) 0
      (((linData a b n).map (fun d => JNum.num d.value)).getD 0 JNum.nan) = _
  rw [c6_initJS a b n m hm hmn hs, h0, hwStepJS_ones m hm a b a ha 0]
  norm_num [HWStateJS.mk.injEq]

theorem c6_stateSuccJS (a b : ℚ) (n m : Nat) (hm : 1 ≤ m) (hmn : m < n)
    (hs : normSeasonalsJS ((linData a b n).map (fun d => JNum.num d.value)) m =
      List.replicate m (JNum.num 1))
    (hnz : ∀ i, i < n → a + b * (i : ℚ) ≠ 0) :
    ∀ i, 1 ≤ i → i < n →
      stateAfterJS 1 1 0 m ((linData a b n).map (fun d => JNum.num d.value))
          (i + 1) =
        ⟨JNum.num (a + b * (i : ℚ)), JNum.num b, List.replicate m (JNum.num 1)⟩ := by
  intro i h1
  induction i, h1 using Nat.le_induction with
  | base =>
    intro hin
    have hv : ((linData a b n).map (fun d => JNum.num d.value)).getD 1 JNum.nan =
        JNum.num (a + b * ((1 : Nat) : ℚ)) := linDataJS_getD a b n hin
    have hz : a + b * ((1 : Nat) : ℚ) ≠ 0 := hnz 1 hin
    show hwStepJS 1 1 0 m
        (stateAfterJS 1 1 0 m ((linData a b n).map (fun d => JNum.num d.value)) 1) 1
        (((linData a b n).map (fun d => JNum.num d.value)).getD 1 JNum.nan) = _
    rw [c6_state1JS a b n m hm hmn hs hnz, hv,
      hwStepJS_ones m hm a 0 (a + b * ((1 : Nat) : ℚ)) hz 1]
    have he : a + b * ((1 : Nat) : ℚ) - a = b := by push_cast; ring
    rw [he]
  | succ i hi ih =>
    intro hin
    have hprev := ih (by omega)
    have hv : ((linData a b n).map (fun d => JNum.num d.value)).getD (i + 1)
        JNum.nan = JNum.num (a + b * ((i + 1 : Nat) : ℚ)) :=
      linDataJS_getD a b n hin
    have hz : a + b * ((i + 1 : Nat) : ℚ) ≠ 0 := hnz (i + 1) hin
    show hwStepJS 1 1 0 m
        (stateAfterJS 1 1 0 m ((linData a b n).map (fun d => JNum.num d.value))
          (i + 1)) (i + 1)
        (((linData a b n).map (fun d => JNum.num d.value)).getD (i + 1)
          JNum.nan) = _
    rw [hprev, hv,
      hwStepJS_ones m hm (a + b * (i : ℚ)) b (a + b * ((i + 1 : Nat) : ℚ)) hz (i + 1)]
    have he : a + b * ((i + 1 : Nat) : ℚ) - (a + b * (i : ℚ)) = b := by
      push_cast
      ring
    rw [he]

theorem c6_stateFinalJS (a b : ℚ) (n m : Nat) (hm : 1 ≤ m) (hmn : m < n)
    (hs : normSeasonalsJS ((linData a b n).map (fun d => JNum.num d.value)) m =
      List.replicate m (JNum.num 1))
    (hnz : ∀ i, i < n → a + b * (i : ℚ) ≠ 0) :
    stateAfterJS 1 1 0 m ((linData a b n).map (fun d => JNum.num d.value)) n =
      ⟨JNum.num (a + b * ((n : ℚ) - 1)), JNum.num b, List.replicate m (JNum.num 1)⟩ := by
  obtain ⟨k, rfl⟩ : ∃ k, n = k + 1 := ⟨n - 1, by omega⟩
  rw [c6_stateSuccJS a b (k + 1) m hm hmn hs hnz k (by omega) (by omega)]
  simp only [HWStateJS.mk.injEq, JNum.num.injEq, and_true, true_and]
  push_cast
  ring

/-- Amended statement of C6, stated on the JavaScript-number model so NaN
propagation is accounted for: on a perfectly linear series none of whose
observed values is zero and whose normalized seasonal table is all ones,
with `alpha = beta = 1` and `gamma = 0`, the fitted value at step 0 equals
the line at index 0, the fitted value at every later step `i` equals the
line at index `i + 1` (one slope step ahead of the observed point), and the
h-th forecast equals the line at its own time index `n + h - 1`. -/
def specLinearExtrapolation (a b : ℚ) (n m f : Nat) : Prop :=
  (((hwResultsJS 1 1 0 m (linData a b n)).get? 0).map (fun r => r.fitted) =
    some (JNum.num a)) ∧
  (∀ i, 1 ≤ i → i < n →
    ((hwResultsJS 1 1 0 m (linData a b n)).get? i).map (fun r => r.fitted) =
      some (JNum.num (a + b * ((i : ℚ) + 1)))) ∧
  (∀ h, 1 ≤ h → h ≤ f →
    ((hwForecastsJS 1 1 0 m (linData a b n) f).get? (h - 1)).map
        (fun r => r.fitted) =
      some (JNum.num (a + b * ((n : ℚ) - 1 + (h : ℚ)))))

/-- C6 counterexample: for the perfectly linear series `[0, 1, 2]` (line
`value[i] = 0 + 1 * i`) with period 2 (whose normalized seasonal factors
are all 1), `alpha = beta = 1`, `gamma = 0`, the fitted value at step 1 is
2, while the value of the generating line at index 1 is `0 + 1 * 1 = 1`,
so not every fitted value equals the value of the line. -/
theorem hw_linear_fitted_shifted :
    ((hwResults 1 1 0 2 (linData 0 1 3)).get? 1).map (fun r => r.fitted) = some 2 ∧
      normSeasonals ((linData 0 1 3).map (fun d => d.value)) 2 = List.replicate 2 1 ∧
      (0 + 1 * ((1 : ℚ)) ≠ 2) := by
  refine ⟨?_, ?_, by norm_num⟩
  · norm_num [hwResults, linData, stateAfter, hwStep, initState, normSeasonals,
      rawSeasonals, List.range_succ]
  · norm_num [normSeasonals, rawSeasonals, linData, List.range_succ, List.replicate]

/-- C6 amended: on a perfectly linear series none of whose observed values
is zero (a zero value would poison the `gamma = 0` seasonal update with
`0 * (0 / 0) = NaN`) and whose normalized seasonal table is all ones, with
`alpha = beta = 1` and `gamma = 0`, the JavaScript computation is exact and:
the fitted value at step 0 equals the line at index 0, the fitted value at
step `i ≥ 1` equals the line at index `i + 1` (one slope step ahead), and
every forecast equals the line at its own time index `n + h - 1` exactly. -/
theorem hw_linear_extrapolation (a b : ℚ) (n m f : Nat) (hm : 1 ≤ m)
    (hmn : m < n)
    (hs : normSeasonalsJS ((linData a b n).map (fun d => JNum.num d.value)) m =
      List.replicate m (JNum.num 1))
    (hnz : ∀ i, i < n → a + b * (i : ℚ) ≠ 0) :
    specLinearExtrapolation a b n m f := by
  have hlen : (linData a b n).length = n := by simp [linData]
  have hr0 : (List.replicate m (JNum.num 1))[0]? = some (JNum.num 1) := by
    cases m with
    | zero => omega
    | succ k => simp [List.replicate_succ]
  refine ⟨?_, ?_, ?_⟩
  · rw [hwResultsJS_get? 1 1 0 m (linData a b n) (by rw [hlen]; omega),
      Option.map_some']
    simp only [Option.some.injEq]
    norm_num [c6_state1JS a b n m hm hmn hs hnz, hr0, jnum_num_add, jnum_num_mul]
  · intro i h1 hin
    rw [hwResultsJS_get? 1 1 0 m (linData a b n) (by rw [hlen]; exact hin),
      Option.map_some']
    simp only [Option.some.injEq]
    rw [c6_stateSuccJS a b n m hm hmn hs hnz i h1 hin]
    show (JNum.num (a + b * (i : ℚ)) + JNum.num b) *
        (List.replicate m (JNum.num 1)).getD (i % m) JNum.nan =
      JNum.num (a + b * ((i : ℚ) + 1))
    rw [getD_replicate m (i % m) (JNum.num 1) JNum.nan (Nat.mod_lt _ (by omega))]
    simp only [jnum_num_add, jnum_num_mul, JNum.num.injEq]
    ring
  · intro h h1 hf
    rw [hwForecastsJS_get? 1 1 0 m (linData a b n) f (by omega), Option.map_some']
    simp only [Option.some.injEq]
    rw [hlen, c6_stateFinalJS a b n m hm hmn hs hnz]
    show (JNum.num (a + b * ((n : ℚ) - 1)) +
          JNum.num b * JNum.num (((h - 1 : ℕ) : ℚ) + 1)) *
        (List.replicate m (JNum.num 1)).getD ((n + (h - 1)) % m) JNum.nan =
      JNum.num (a + b * ((n : ℚ) - 1 + (h : ℚ)))
    rw [getD_replicate m ((n + (h - 1)) % m) (JNum.num 1) JNum.nan
      (Nat.mod_lt _ (by omega))]
    simp only [jnum_num_add, jnum_num_mul, JNum.num.injEq]
    rw [Nat.cast_sub h1]
    push_cast
    ring

/-- Witness for the amended C6 at a concrete input: the line
`value[i] = 1 + i` (series `[1, 2, 3]`, no zero values), period 2, whose
normalized JavaScript seasonal table is all ones. -/
theorem hw_linear_extrapolation_witness :
    (1 ≤ 2 ∧ 2 < 3 ∧
      normSeasonalsJS ((linData 1 1 3).map (fun d => JNum.num d.value)) 2 =
        List.replicate 2 (JNum.num 1) ∧
      (∀ i : Nat, i < 3 → (1 : ℚ) + 1 * (i : ℚ) ≠ 0)) ∧
      specLinearExtrapolation 1 1 3 2 2 := by
  have h3 : normSeasonalsJS ((linData 1 1 3).map (fun d => JNum.num d.value)) 2 =
      List.replicate 2 (JNum.num 1) := by
    norm_num [normSeasonalsJS, rawSeasonalsJS, linData, List.range_succ,
      List.replicate, jnum_add_def, jnum_div_def, JNum.add, JNum.div]
  have h4 : ∀ i : Nat, i < 3 → (1 : ℚ) + 1 * (i : ℚ) ≠ 0 := by
    intro i _
    positivity
  exact ⟨⟨by decide, by decide, h3, h4⟩,
    hw_linear_extrapolation 1 1 3 2 2 (by decide) (by decide) h3 h4⟩

/-! ## C7-C10: error behaviour, determinism and totality, on the
JavaScript-number model -/

theorem holtWintersJS_eq_some (data : List Obs) (alpha beta gamma : ℚ)
    {m : Nat} (f : Nat) (hm : m ≠ 0) :
    holtWintersJS data alpha beta gamma m f =
      some (hwResultsJS alpha beta gamma m data ++
        hwForecastsJS alpha beta gamma m data f) := by
  simp [holtWintersJS, hm]

theorem length_hwResultsJS (alpha beta gamma : ℚ) (m : Nat) (data : List Obs) :
    (hwResultsJS alpha beta gamma m data).length = data.length := by
  simp [hwResultsJS]

theorem length_hwForecastsJS (alpha beta gamma : ℚ) (m : Nat) (data : List Obs)
    (f : Nat) : (hwForecastsJS alpha beta gamma m data f).length = f := by
  simp [hwForecastsJS]

/-- C7 counterexample: calling the source with
`series = [{value: 5}], alpha = 0.5, beta = 0.4, gamma = 0.6,
seasonalPeriod = 12, forecastHorizon = 3` does not signal any error: it
returns an output sequence of `1 + 3 = 4` records (whose fitted values are
`NaN`), so no `InsufficientSeries` error is produced. -/
theorem hw_short_series_no_error :
    (holtWintersJS [⟨"m0", 5⟩] (1/2) (2/5) (3/5) 12 3).map (fun l => l.length) =
      some 4 := by
  norm_num [holtWintersJS, hwResultsJS, hwForecastsJS]

/-- C7 amended: the source performs no validation, so when the series
length is at most the seasonal period it still returns an output sequence
of exactly `n + horizon` records (with meaningless `NaN` content) instead
of signalling `InsufficientSeries`. -/
theorem hw_short_series_output (data : List Obs) (alpha beta gamma : ℚ)
    (m f : Nat) (hm : 1 ≤ m) (hshort : data.length ≤ m) :
    (holtWintersJS data alpha beta gamma m f).map (fun l => l.length) =
      some (data.length + f) := by
  rw [holtWintersJS_eq_some data alpha beta gamma f (by omega), Option.map_some']
  simp [length_hwResultsJS, length_hwForecastsJS]

/-- Witness for the amended C7 at the concrete input of the claim. -/
theorem hw_short_series_output_witness :
    ((1 : Nat) ≤ 12 ∧ ([⟨"m0", (5 : ℚ)⟩] : List Obs).length ≤ 12) ∧
      (holtWintersJS [⟨"m0", 5⟩] (1/2) (2/5) (3/5) 12 3).map (fun l => l.length) =
        some (([⟨"m0", (5 : ℚ)⟩] : List Obs).length + 3) :=
  ⟨⟨by decide, by decide⟩,
    hw_short_series_output [⟨"m0", 5⟩] (1/2) (2/5) (3/5) 12 3
      (by decide) (by decide)⟩

/-- C8 counterexample: on the series `[0, 0, 1]` with period 2 the
normalized seasonal table has a zero slot (slot 1), so the recurrence step
at `i = 1` divides zero by zero; the source does not abort: it returns the
full 4-record output, with the already-computed first record kept and the
contaminated fitted values equal to `NaN` from step 1 on. -/
theorem hw_zero_divisor_no_abort :
    (normSeasonalsJS (([⟨"a", 0⟩, ⟨"b", 0⟩, ⟨"c", 1⟩] : List Obs).map
        (fun d => JNum.num d.value)) 2).getD 1 JNum.nan = JNum.num 0 ∧
    (holtWintersJS [⟨"a", 0⟩, ⟨"b", 0⟩, ⟨"c", 1⟩] (1/2) (2/5) (3/5) 2 1).map
      (fun l => (l.length, (l.get? 1).map (fun r => r.fitted))) =
      some (4, some JNum.nan) := by
  constructor <;>
    norm_num [normSeasonalsJS, rawSeasonalsJS, holtWintersJS, hwResultsJS,
      hwForecastsJS, stateAfterJS, hwStepJS, initStateJS, jnum_add_def,
      jnum_sub_def, jnum_mul_def, jnum_div_def, JNum.add, JNum.sub, JNum.mul,
      JNum.div, JNum.neg, List.range_succ]

/-- C8 amended: a zero divisor in the recurrence (here: a zero normalized
seasonal slot) does not abort the call and nothing is discarded: the
source still returns the full `n + horizon` output sequence, with
non-finite values propagating through the fitted results instead of an
error. -/
theorem hw_zero_divisor_full_output (data : List Obs) (alpha beta gamma : ℚ)
    (m f : Nat) (hm : 1 ≤ m)
    (hzero : ∃ k, k < m ∧
      (normSeasonalsJS (data.map (fun d => JNum.num d.value)) m).getD k
        JNum.nan = JNum.num 0) :
    (holtWintersJS data alpha beta gamma m f).map (fun l => l.length) =
      some (data.length + f) := by
  rw [holtWintersJS_eq_some data alpha beta gamma f (by omega), Option.map_some']
  simp [length_hwResultsJS, length_hwForecastsJS]

/-- Witness for the amended C8 at a concrete input with a zero seasonal
slot. -/
theorem hw_zero_divisor_full_output_witness :
    (1 ≤ 2 ∧ (∃ k, k < 2 ∧
      (normSeasonalsJS (([⟨"a", 0⟩, ⟨"b", 0⟩, ⟨"c", 1⟩] : List Obs).map
        (fun d => JNum.num d.value)) 2).getD k JNum.nan = JNum.num 0)) ∧
    (holtWintersJS [⟨"a", 0⟩, ⟨"b", 0⟩, ⟨"c", 1⟩] (1/2) (2/5) (3/5) 2 1).map
        (fun l => l.length) =
      some (([⟨"a", (0 : ℚ)⟩, ⟨"b", 0⟩, ⟨"c", 1⟩] : List Obs).length + 1) := by
  have hz : (normSeasonalsJS (([⟨"a", 0⟩, ⟨"b", 0⟩, ⟨"c", 1⟩] : List Obs).map
      (fun d => JNum.num d.value)) 2).getD 1 JNum.nan = JNum.num 0 := by
    norm_num [normSeasonalsJS, rawSeasonalsJS, jnum_add_def, jnum_div_def,
      JNum.add, JNum.div, List.range_succ]
  exact ⟨⟨by decide, ⟨1, by decide, hz⟩⟩,
    hw_zero_divisor_full_output [⟨"a", 0⟩, ⟨"b", 0⟩, ⟨"c", 1⟩] (1/2) (2/5) (3/5)
      2 1 (by decide) ⟨1, by decide, hz⟩⟩

/-- C9: the source is a pure function of its arguments: two calls with
identical series, coefficients, period and horizon return identical output
sequences. -/
theorem hw_deterministic (d1 d2 : List Obs) (a1 a2 b1 b2 g1 g2 : ℚ)
    (m1 m2 f1 f2 : Nat) (hd : d1 = d2) (ha : a1 = a2) (hb : b1 = b2)
    (hg : g1 = g2) (hm : m1 = m2) (hf : f1 = f2) :
    holtWintersJS d1 a1 b1 g1 m1 f1 = holtWintersJS d2 a2 b2 g2 m2 f2 := by
  subst hd
  subst ha
  subst hb
  subst hg
  subst hm
  subst hf
  rfl

/-- Witness for C9 at a concrete input. -/
theorem hw_deterministic_witness :
    holtWintersJS [⟨"a", 1⟩] (1/2) (2/5) (3/5) 2 1 =
      holtWintersJS [⟨"a", 1⟩] (1/2) (2/5) (3/5) 2 1 :=
  hw_deterministic [⟨"a", 1⟩] [⟨"a", 1⟩] (1/2) (1/2) (2/5) (2/5) (3/5) (3/5)
    2 2 1 1 rfl rfl rfl rfl rfl rfl

/-- C10 counterexample: `alpha = 3/2` lies outside `[0, 1]`, an input the
specification classifies as an error, yet on the well-formed series
`[1, 2, 3]` the source returns a full 4-record output whose fitted values
are all finite, so it is not the case that fitted values are non-finite on
every such input. -/
theorem hw_bad_coeff_finite :
    (1 : ℚ) < 3/2 ∧
    (holtWintersJS [⟨"a", 1⟩, ⟨"b", 2⟩, ⟨"c", 3⟩] (3/2) (2/5) (3/5) 2 1).map
      (fun l => (l.length, l.all (fun r => r.fitted.isFinite))) =
      some (4, true) := by
  constructor
  · norm_num
  · norm_num [holtWintersJS, hwResultsJS, hwForecastsJS, stateAfterJS, hwStepJS,
      initStateJS, normSeasonalsJS, rawSeasonalsJS, jnum_add_def, jnum_sub_def,
      jnum_mul_def, jnum_div_def, JNum.add, JNum.sub, JNum.mul, JNum.div,
      JNum.neg, JNum.isFinite, List.range_succ, List.all]

/-- C10 amended: for every positive seasonal period the source signals no
error and returns exactly `n + forecastSize` records, whatever the inputs;
fitted values on spec-error inputs may be non-finite (short series,
all-zero series) but can also be finite (coefficients outside `[0, 1]`
with a well-formed series); `seasonalPeriod = 0` is the only input that
throws (reduce of the empty seasonal array). -/
theorem hw_total_output_shape (data : List Obs) (alpha beta gamma : ℚ)
    (m f : Nat) :
    (1 ≤ m → (holtWintersJS data alpha beta gamma m f).map (fun l => l.length) =
      some (data.length + f)) ∧
    (m = 0 → holtWintersJS data alpha beta gamma m f = none) := by
  constructor
  · intro hm
    rw [holtWintersJS_eq_some data alpha beta gamma f (by omega), Option.map_some']
    simp [length_hwResultsJS, length_hwForecastsJS]
  · intro h0
    subst h0
    rfl

/-- Witness for the amended C10: both branches at concrete inputs. -/
theorem hw_total_output_shape_witness :
    (holtWintersJS [⟨"x", 5⟩] (1/2) (2/5) (3/5) 2 3).map (fun l => l.length) =
        some (([⟨"x", (5 : ℚ)⟩] : List Obs).length + 3) ∧
      holtWintersJS [⟨"x", 5⟩] (1/2) (2/5) (3/5) 0 3 = none :=
  ⟨(hw_total_output_shape [⟨"x", 5⟩] (1/2) (2/5) (3/5) 2 3).1 (by decide),
    (hw_total_output_shape [⟨"x", 5⟩] (1/2) (2/5) (3/5) 0 3).2 rfl⟩
